import Mathlib

/-!
Shallow embedding of the Reflect composite-type descriptor core
(src/MetaStruct.h, src/Tests.cpp).

The repository snapshot ships the header (class layouts, field flags and the
registration macros) and a test file.  The method bodies of MetaStruct and
Field live in Reflect/MetaStruct.cpp and Reflect/MetaStruct.inl, which are
not part of the snapshot; wherever a body is missing the corresponding Lean
definition is modelled from the spec and says so in its doc comment.
Instances are modelled as flat stores of abstract values indexed by field
slot; a field's per-slot access strategy ("translator") is external to the
core, so its equality and clone operations are modelled as equality and
assignment of the stored value.
-/

namespace Reflect

/-- Field flag bit values, from FieldFlags::MetaType in src/MetaStruct.h.
Exact values are part of the contract: Discard=1, Force=2, Share=4, Hide=8,
ReadOnly=16. -/
def FieldFlags.Discard : Nat := 1

/-- Force flag: forced fields are always serialized (src/MetaStruct.h). -/
def FieldFlags.Force : Nat := 2

/-- Share flag: shared fields are not cloned or compared deeply
(src/MetaStruct.h). -/
def FieldFlags.Share : Nat := 4

/-- Hide flag: hidden fields are not inherently visible in UI
(src/MetaStruct.h). -/
def FieldFlags.Hide : Nat := 8

/-- ReadOnly flag: read-only fields cannot be edited in the UI
(src/MetaStruct.h). -/
def FieldFlags.ReadOnly : Nat := 16

/-- Field descriptor: one member's static metadata, from class Field in
src/MetaStruct.h.  The m_Structure back-reference and the m_KeyType,
m_ValueType and m_Translator handles point at external collaborators and
are not consulted by any claim, so they are omitted from the embedding. -/
structure Field where
  m_Name : String
  m_Size : Nat
  m_Count : Nat
  m_Offset : Nat
  m_Flags : Nat
  m_Index : Nat
  deriving DecidableEq

/-- Composite-type descriptor, from class MetaStruct in src/MetaStruct.h.
The m_Base pointer is null exactly for root types, so the two cases are the
two constructors; m_Fields is the ordered own-field sequence.  The mutable
m_FirstDerived and m_NextSibling intrusive-list pointers are modelled
separately as DerivedState, since they are mutated by other descriptors. -/
inductive MetaStruct : Type where
  | root (name : String) (fields : List Field)
  | derived (name : String) (base : MetaStruct) (fields : List Field)
  deriving DecidableEq

/-- Own fields of a descriptor (the m_Fields member). -/
def MetaStruct.m_Fields : MetaStruct → List Field
  | .root _ fs => fs
  | .derived _ _ fs => fs

/-- Base link of a descriptor (the m_Base member, none for roots). -/
def MetaStruct.m_Base : MetaStruct → Option MetaStruct
  | .root _ _ => none
  | .derived _ b _ => some b

/-- Replace the own-field sequence, keeping name and base link. -/
def MetaStruct.withFields : MetaStruct → List Field → MetaStruct
  | .root n _, fs => .root n fs
  | .derived n b _, fs => .derived n b fs

/-- Modelled from the spec: MetaStruct::GetBaseFieldCount (body in the
missing Reflect/MetaStruct.cpp) returns the total field count accumulated
along the base chain — recursive sum, 0 for a root type. -/
def GetBaseFieldCount : MetaStruct → Nat
  | .root _ _ => 0
  | .derived _ b _ => GetBaseFieldCount b + b.m_Fields.length

/-- Strict ancestors of a descriptor, reached by following the base link
repeatedly until the root (base == null). -/
def strictAncestors : MetaStruct → List MetaStruct
  | .root _ _ => []
  | .derived _ b _ => b :: strictAncestors b

/-- Own fields of every level from this descriptor up to the root, the
field set walked by Equals and Copy. -/
def allFields : MetaStruct → List Field
  | .root _ fs => fs
  | .derived _ b fs => fs ++ allFields b

/-- Modelled from the spec: MetaStruct::IsType (body in the missing
Reflect/MetaStruct.cpp) returns true if the candidate equals self or is
reached by following the base link repeatedly; walking stops at the root. -/
def IsType : MetaStruct → MetaStruct → Bool
  | .root n fs, c => decide (MetaStruct.root n fs = c)
  | .derived n b fs, c => decide (MetaStruct.derived n b fs = c) || IsType b c

/-- Static declaration data passed to one AddField call: the name and flags
are passed explicitly in the source; size, count and offset are deduced
from the member's static shape by the missing template helpers. -/
structure FieldDecl where
  name : String
  size : Nat
  count : Nat
  offset : Nat
  flags : Nat
  deriving DecidableEq

/-- Field record appended by AddField: modelled from the spec, which says
AddField appends the fully populated Field, assigning it the next
sequential index, namely GetBaseFieldCount() plus the current own-field
count. -/
def newField (s : MetaStruct) (d : FieldDecl) : Field :=
  { m_Name := d.name, m_Size := d.size, m_Count := d.count,
    m_Offset := d.offset, m_Flags := d.flags,
    m_Index := GetBaseFieldCount s + s.m_Fields.length }

/-- Modelled from the spec: MetaStruct::AddField (body in the missing
Reflect/MetaStruct.inl) appends one field to the own-field sequence. -/
def AddField (s : MetaStruct) (d : FieldDecl) : MetaStruct :=
  MetaStruct.withFields s (s.m_Fields ++ [newField s d])

/-- Population callback: the PopulateMetaType routines invoke AddField once
per declared member, in declaration order. -/
def populate (s : MetaStruct) (decls : List FieldDecl) : MetaStruct :=
  decls.foldl AddField s

/-- Empty descriptor produced by the factory before population. -/
def mkEmptyStruct (base : Option MetaStruct) (name : String) : MetaStruct :=
  match base with
  | none => MetaStruct.root name []
  | some b => MetaStruct.derived name b []

/-- Modelled from the spec: MetaStruct::Create produces an empty descriptor
and invokes its populate callback to append fields. -/
def create (base : Option MetaStruct) (name : String)
    (decls : List FieldDecl) : MetaStruct :=
  populate (mkEmptyStruct base name) decls

/-- Modelled from the spec: MetaStruct::FindFieldByOffset (body in the
missing Reflect/MetaStruct.cpp) performs a linear scan comparing byte
offsets and returns the first exact match, or not-found as none. -/
def FindFieldByOffset (s : MetaStruct) (offset : Nat) : Option Field :=
  s.m_Fields.find? fun f => f.m_Offset == offset

/-- Instance model: a flat store of abstract values, one slot per field
index.  The per-field access strategy reads and writes exactly its own
field's storage, which this model keys by the field's unique index. -/
abbrev Inst (V : Type) := Nat → V

/-- Modelled from the spec: Field::IsDefaultValue (body in the missing
Reflect/MetaStruct.cpp) delegates to the access strategy to compare the
field's value at the instance against the same field's value at the
default instance. -/
def IsDefaultValue {V : Type} [DecidableEq V] (f : Field)
    (inst dflt : Inst V) : Bool :=
  decide (inst f.m_Index = dflt f.m_Index)

/-- Modelled from the spec: Field::ShouldSerialize (body in the missing
Reflect/MetaStruct.cpp) evaluates in this precedence — Discard set: never
serialize; else Force set: always serialize; else serialize iff the value
differs from the default instance's value. -/
def ShouldSerialize {V : Type} [DecidableEq V] (f : Field)
    (inst dflt : Inst V) : Bool :=
  if f.m_Flags &&& FieldFlags.Discard ≠ 0 then false
  else if f.m_Flags &&& FieldFlags.Force ≠ 0 then true
  else !(IsDefaultValue f inst dflt)

/-- Whether a field carries the Share flag (skipped by deep compare and
deep copy). -/
def isShare (f : Field) : Bool := f.m_Flags &&& FieldFlags.Share != 0

/-- One field's comparison between two instances via the access strategy's
equality. -/
def fieldEquals {V : Type} [DecidableEq V] (f : Field) (a b : Inst V) : Bool :=
  decide (a f.m_Index = b f.m_Index)

/-- Comparison of one level's own fields: every non-Share field must
compare equal (List.all short-circuits to false on the first mismatch). -/
def levelEquals {V : Type} [DecidableEq V] (fields : List Field)
    (a b : Inst V) : Bool :=
  fields.all fun f => isShare f || fieldEquals f a b

/-- Modelled from the spec: MetaStruct::Equals (body in the missing
Reflect/MetaStruct.cpp) walks level by level from the common-ancestor
descriptor it is invoked on up to the root, comparing each non-Share field
via the access strategy and short-circuiting to false on first mismatch. -/
def Equals {V : Type} [DecidableEq V] : MetaStruct → Inst V → Inst V → Bool
  | .root _ fs, a, b => levelEquals fs a b
  | .derived _ base fs, a, b => levelEquals fs a b && Equals base a b

/-- One field's clone: the access strategy assigns the source value into
the destination's slot for this field. -/
def fieldCopy {V : Type} (f : Field) (src dst : Inst V) : Inst V :=
  fun i => if i = f.m_Index then src f.m_Index else dst i

/-- One step of Copy over one field: a Share-flagged field is left
untouched unless the copy is shallow (in which case it is shallow-aliased);
every other field is always cloned. -/
def copyStep {V : Type} (shallow : Bool) (src : Inst V)
    (dst : Inst V) (f : Field) : Inst V :=
  if isShare f && !shallow then dst else fieldCopy f src dst

/-- Clone of one level's own fields into the destination instance. -/
def levelCopy {V : Type} (fields : List Field) (shallow : Bool)
    (src dst : Inst V) : Inst V :=
  fields.foldl (copyStep shallow src) dst

/-- Modelled from the spec: MetaStruct::Copy (body in the missing
Reflect/MetaStruct.cpp) walks the same field set as Equals level by level
from the descriptor it is invoked on up to the root, cloning each field via
its access strategy, skipping Share-flagged fields when the copy is deep. -/
def Copy {V : Type} : MetaStruct → Inst V → Inst V → Bool → Inst V
  | .root _ fs, src, dst, sh => levelCopy fs sh src dst
  | .derived _ base fs, src, dst, sh => Copy base src (levelCopy fs sh src dst) sh

/-- State of one base descriptor's intrusive derived list: the base's
m_FirstDerived pointer and every descriptor's m_NextSibling pointer
(descriptors identified by numeric identity; none models a null pointer). -/
structure DerivedState where
  firstDerived : Option Nat
  nextSibling : Nat → Option Nat

/-- Derived list with no registrations: both pointers null everywhere. -/
def emptyDerivedState : DerivedState :=
  { firstDerived := none, nextSibling := fun _ => none }

/-- Modelled from the spec: MetaStruct::AddDerived (body in the missing
Reflect/MetaStruct.cpp) inserts the derived descriptor at the head of the
base's intrusive singly-linked derived list. -/
def AddDerived (d : Nat) (s : DerivedState) : DerivedState :=
  { firstDerived := some d,
    nextSibling := fun x => if x = d then s.firstDerived else s.nextSibling x }

/-- Scan step of RemoveDerived: walk the sibling chain looking for the node
whose next pointer is the one being removed, and splice it out.  Fuel
bounds the walk so the model is total even on ill-formed pointer states. -/
def removeScan (d : Nat) : Nat → Nat → DerivedState → DerivedState
  | 0, _, s => s
  | fuel + 1, sib, s =>
    match s.nextSibling sib with
    | some nxt =>
      if nxt = d then
        { s with nextSibling :=
            fun x => if x = sib then s.nextSibling d else s.nextSibling x }
      else removeScan d fuel nxt s
    | none => s

/-- Modelled from the spec: MetaStruct::RemoveDerived (body in the missing
Reflect/MetaStruct.cpp) scans the singly-linked derived list for the
matching node and splices it out. -/
def RemoveDerived (fuel : Nat) (d : Nat) (s : DerivedState) : DerivedState :=
  match s.firstDerived with
  | some h => if h = d then { s with firstDerived := s.nextSibling d }
              else removeScan d fuel h s
  | none => s

/-- Descriptors reachable by walking a sibling chain, head first, bounded
by fuel. -/
def derivedChain (s : DerivedState) : Nat → Option Nat → List Nat
  | 0, _ => []
  | _, none => []
  | fuel + 1, some d => d :: derivedChain s fuel (s.nextSibling d)

/-- Descriptors reachable from the base's derived set, head first. -/
def derivedList (fuel : Nat) (s : DerivedState) : List Nat :=
  derivedChain s fuel s.firstDerived

/-- Registration guard of the base-structure macro, from
_REFLECT_DEFINE_BASE_STRUCTURE in src/MetaStruct.h: CreateStructure asserts
HELIUM_ASSERT( s_Structure == NULL ) before creating; an assertion failure
aborts, modelled as an error result. -/
def createBaseStructure (sStructure : Option MetaStruct) (name : String)
    (decls : List FieldDecl) : Except String MetaStruct :=
  if sStructure.isSome then
    Except.error "HELIUM_ASSERT failed: s_Structure == NULL"
  else
    Except.ok (create none name decls)

/-- Registration guards of the derived-structure macro, from
_REFLECT_DEFINE_DERIVED_STRUCTURE in src/MetaStruct.h: CreateStructure
asserts HELIUM_ASSERT( s_Structure == NULL ) and then
HELIUM_ASSERT( Base::s_Structure != NULL ) before creating; an assertion
failure aborts, modelled as an error result. -/
def createDerivedStructure (sStructure : Option MetaStruct)
    (baseStructure : Option MetaStruct) (name : String)
    (decls : List FieldDecl) : Except String MetaStruct :=
  if sStructure.isSome then
    Except.error "HELIUM_ASSERT failed: s_Structure == NULL"
  else
    match baseStructure with
    | none => Except.error "HELIUM_ASSERT failed: base s_Structure != NULL"
    | some b => Except.ok (create (some b) name decls)

/-- Declaration entry for one AddField call of TestStructure's populate
routine in src/Tests.cpp.  Only the name and the default flags (0) are
visible in src/Tests.cpp; sizes, counts and offsets are deduced from the
member declarations in the missing Reflect/Tests.h and are irrelevant to
the field-count and index claims, so they are modelled as size 0, count 1,
offset 0. -/
def testDecl (n : String) : FieldDecl :=
  { name := n, size := 0, count := 1, offset := 0, flags := 0 }

/-- The sixteen AddField calls of TestStructure::PopulateMetaType in
src/Tests.cpp, in declaration order, with the exact name strings. -/
def testStructureDecls : List FieldDecl :=
  [ testDecl "Unsigned 8-bit Integer",
    testDecl "Unsigned 16-bit Integer",
    testDecl "Unsigned 32-bit Integer",
    testDecl "Unsigned 64-bit Integer",
    testDecl "Signed 8-bit Integer",
    testDecl "Signed 16-bit Integer",
    testDecl "Signed 32-bit Integer",
    testDecl "Signed 64-bit Integer",
    testDecl "32-bit Floating Point",
    testDecl "64-bit Floating Point",
    testDecl "std::vector of Signed 32-bit Integers",
    testDecl "std::vector of Unsigned 32-bit Integers",
    testDecl "std::map of Unsigned 32-bit Integers",
    testDecl "Dynamic Array of Signed 32-bit Integers",
    testDecl "Set of Unsigned 32-bit Integers",
    testDecl "Map of Unsigned 32-bit Integers" ]

/-- TestStructure's registered descriptor: a root type (declared with
HELIUM_DEFINE_BASE_STRUCT in src/Tests.cpp) populated by the sixteen
AddField calls above. -/
def testStructure : MetaStruct :=
  create none "TestStructure" testStructureDecls

/-- Modelled from the spec: a derived structure under TestStructure adding
two more fields.  No such structure appears in src/Tests.cpp; it is built
here with the registration model to settle the derived-index part of the
scenario claim. -/
def testDerivedStructure : MetaStruct :=
  create (some testStructure) "TestStructureDerived"
    [testDecl "Extra Field One", testDecl "Extra Field Two"]

/-- Concrete root descriptor used by the IsType scenario. -/
def exR : MetaStruct := MetaStruct.root "R" []

/-- Concrete derived descriptor under exR used by the IsType scenario. -/
def exD : MetaStruct := MetaStruct.derived "D" exR []

/-- Derived-list state after registering D1, D2, D3 (identities 1, 2, 3)
under one base. -/
def c6After3 : DerivedState :=
  AddDerived 3 (AddDerived 2 (AddDerived 1 emptyDerivedState))

/-- Derived-list state after then unregistering D2. -/
def c6Final : DerivedState := RemoveDerived 10 2 c6After3

/-- Concrete fields exercising each ShouldSerialize branch. -/
def c1DiscardField : Field :=
  { m_Name := "d", m_Size := 4, m_Count := 1, m_Offset := 0,
    m_Flags := FieldFlags.Discard, m_Index := 0 }

/-- Concrete field with the Force flag. -/
def c1ForceField : Field :=
  { m_Name := "f", m_Size := 4, m_Count := 1, m_Offset := 4,
    m_Flags := FieldFlags.Force, m_Index := 1 }

/-- Concrete field with no flags. -/
def c1PlainField : Field :=
  { m_Name := "p", m_Size := 4, m_Count := 1, m_Offset := 8,
    m_Flags := 0, m_Index := 2 }

/-- Instance whose every slot holds 1. -/
def instOne : Inst Nat := fun _ => 1

/-- Instance whose every slot holds 0. -/
def instZero : Inst Nat := fun _ => 0

/-- Concrete two-field structure used by the offset-lookup witness. -/
def c7Struct : MetaStruct :=
  create none "P"
    [ { name := "a", size := 4, count := 1, offset := 0, flags := 0 },
      { name := "b", size := 4, count := 1, offset := 4, flags := 0 } ]

/-- The second registered field of c7Struct, as produced by AddField. -/
def c7FieldB : Field :=
  { m_Name := "b", m_Size := 4, m_Count := 1, m_Offset := 4,
    m_Flags := 0, m_Index := 1 }

/-! Helper lemmas shared by the claim theorems. -/

theorem m_Fields_withFields (s : MetaStruct) (fs : List Field) :
    (s.withFields fs).m_Fields = fs := by
  cases s <;> rfl

theorem baseFieldCount_withFields (s : MetaStruct) (fs : List Field) :
    GetBaseFieldCount (s.withFields fs) = GetBaseFieldCount s := by
  cases s <;> rfl

theorem levelEquals_eq_true {V : Type} [DecidableEq V] (fields : List Field)
    (a b : Inst V) :
    levelEquals fields a b = true ↔
      ∀ f ∈ fields, isShare f = false → a f.m_Index = b f.m_Index := by
  unfold levelEquals
  rw [List.all_eq_true]
  constructor
  · intro h f hf hs
    have hor := h f hf
    rw [Bool.or_eq_true] at hor
    rcases hor with h1 | h2
    · rw [hs] at h1
      cases h1
    · exact of_decide_eq_true h2
  · intro h f hf
    rw [Bool.or_eq_true]
    cases hsf : isShare f with
    | false => exact Or.inr (decide_eq_true (h f hf hsf))
    | true => exact Or.inl rfl

theorem equals_eq_true_iff {V : Type} [DecidableEq V] (S : MetaStruct)
    (a b : Inst V) :
    Equals S a b = true ↔
      ∀ f ∈ allFields S, isShare f = false → a f.m_Index = b f.m_Index := by
  induction S with
  | root n fs =>
    exact levelEquals_eq_true fs a b
  | derived n bs fs ih =>
    show (levelEquals fs a b && Equals bs a b) = true ↔ _
    rw [Bool.and_eq_true, levelEquals_eq_true, ih]
    rw [show allFields (MetaStruct.derived n bs fs) = fs ++ allFields bs from rfl,
      List.forall_mem_append]

theorem isShare_eq_false_iff (f : Field) :
    isShare f = false ↔ f.m_Flags &&& FieldFlags.Share = 0 := by
  unfold isShare
  rw [bne_eq_false_iff_eq]

/-! Claim theorems. -/

/-- Claim C1: Field::ShouldSerialize evaluates in this precedence — Discard
set: false, even when the value differs from the default; else Force set:
true, even when the value equals the default; else true iff the value in
the instance differs from the value in the default instance. -/
theorem C1_shouldSerialize {V : Type} [DecidableEq V] (f : Field)
    (inst dflt : Inst V) :
    (f.m_Flags &&& FieldFlags.Discard ≠ 0 →
      ShouldSerialize f inst dflt = false) ∧
    (f.m_Flags &&& FieldFlags.Discard = 0 → f.m_Flags &&& FieldFlags.Force ≠ 0 →
      ShouldSerialize f inst dflt = true) ∧
    (f.m_Flags &&& FieldFlags.Discard = 0 → f.m_Flags &&& FieldFlags.Force = 0 →
      (ShouldSerialize f inst dflt = true ↔
        inst f.m_Index ≠ dflt f.m_Index)) := by
  refine ⟨fun hd => ?_, fun hd hf => ?_, fun hd hf => ?_⟩
  · simp [ShouldSerialize, hd]
  · simp [ShouldSerialize, hd, hf]
  · simp [ShouldSerialize, IsDefaultValue, hd, hf]

/-- Witness for claim C1: the Discard branch fires even though every slot
of instOne differs from instZero, the Force branch fires even though the
two instances agree on every slot, and the unflagged branch reduces to the
default-value comparison. -/
theorem C1_shouldSerialize_witness :
    ShouldSerialize c1DiscardField instOne instZero = false ∧
    ShouldSerialize c1ForceField instZero instZero = true ∧
    (ShouldSerialize c1PlainField instOne instZero = true ↔
      instOne c1PlainField.m_Index ≠ instZero c1PlainField.m_Index) :=
  ⟨(C1_shouldSerialize c1DiscardField instOne instZero).1 (by decide),
   (C1_shouldSerialize c1ForceField instZero instZero).2.1 (by decide) (by decide),
   (C1_shouldSerialize c1PlainField instOne instZero).2.2 (by decide) (by decide)⟩

/-- Claim C5: IsType t c is true iff c equals t or c is reached by
following the base link repeatedly before the root; in particular for the
concrete root exR and its direct derived exD, exD.IsType exR is true,
exR.IsType exD is false and exD.IsType exD is true. -/
theorem C5_isType (t c : MetaStruct) :
    (IsType t c = true ↔ c = t ∨ c ∈ strictAncestors t) ∧
    IsType exD exR = true ∧
    IsType exR exD = false ∧
    IsType exD exD = true := by
  refine ⟨?_, by decide, by decide, by decide⟩
  induction t with
  | root n fs =>
    unfold IsType strictAncestors
    rw [decide_eq_true_iff]
    simp [eq_comm]
  | derived n b fs ih =>
    unfold IsType strictAncestors
    rw [Bool.or_eq_true, decide_eq_true_iff, ih]
    rw [List.mem_cons]
    constructor
    · rintro (h | h | h)
      · exact Or.inl h.symm
      · exact Or.inr (Or.inl h)
      · exact Or.inr (Or.inr h)
    · rintro (h | h | h)
      · exact Or.inl h.symm
      · exact Or.inr (Or.inl h)
      · exact Or.inr (Or.inr h)

/-- Claim C9: creating the descriptor of the same structure type twice is a
fatal programmer error — with the static descriptor pointer already
non-null the HELIUM_ASSERT( s_Structure == NULL ) guard aborts, while the
first creation (pointer still null) succeeds. -/
theorem C9_double_registration (S : MetaStruct) (name : String)
    (decls : List FieldDecl) :
    createBaseStructure (some S) name decls =
      Except.error "HELIUM_ASSERT failed: s_Structure == NULL" ∧
    createBaseStructure none name decls =
      Except.ok (create none name decls) :=
  ⟨rfl, rfl⟩

/-- Claim C10: creating a derived descriptor requires the base descriptor
to exist already — with Base::s_Structure still null the second assert
aborts, while with a registered base (and a null own pointer) creation
succeeds. -/
theorem C10_base_before_derived (b : MetaStruct) (name : String)
    (decls : List FieldDecl) :
    createDerivedStructure none none name decls =
      Except.error "HELIUM_ASSERT failed: base s_Structure != NULL" ∧
    createDerivedStructure none (some b) name decls =
      Except.ok (create (some b) name decls) :=
  ⟨rfl, rfl⟩

theorem levelCopy_cons {V : Type} (f : Field) (t : List Field) (sh : Bool)
    (src dst : Inst V) :
    levelCopy (f :: t) sh src dst = levelCopy t sh src (copyStep sh src dst f) :=
  rfl

theorem copyStep_cases {V : Type} (sh : Bool) (src dst : Inst V) (f : Field)
    (i : Nat) :
    copyStep sh src dst f i = src i ∨ copyStep sh src dst f i = dst i := by
  unfold copyStep fieldCopy
  by_cases hs : (isShare f && !sh) = true
  · rw [if_pos hs]
    exact Or.inr rfl
  · rw [if_neg hs]
    by_cases hi : i = f.m_Index
    · rw [if_pos hi, hi]
      exact Or.inl rfl
    · rw [if_neg hi]
      exact Or.inr rfl

theorem levelCopy_cases {V : Type} (fields : List Field) (sh : Bool)
    (src dst : Inst V) (i : Nat) :
    levelCopy fields sh src dst i = src i ∨
      levelCopy fields sh src dst i = dst i := by
  induction fields generalizing dst with
  | nil => exact Or.inr rfl
  | cons f t ih =>
    rw [levelCopy_cons]
    rcases ih (copyStep sh src dst f) with h | h
    · exact Or.inl h
    · rw [h]
      exact copyStep_cases sh src dst f i

theorem copy_cases {V : Type} (S : MetaStruct) (src dst : Inst V) (sh : Bool)
    (i : Nat) :
    Copy S src dst sh i = src i ∨ Copy S src dst sh i = dst i := by
  induction S generalizing dst with
  | root n fs => exact levelCopy_cases fs sh src dst i
  | derived n b fs ih =>
    have hstep : Copy (MetaStruct.derived n b fs) src dst sh i
        = Copy b src (levelCopy fs sh src dst) sh i := rfl
    rw [hstep]
    rcases ih (levelCopy fs sh src dst) with h | h
    · exact Or.inl h
    · rcases levelCopy_cases fs sh src dst i with h2 | h2
      · exact Or.inl (h.trans h2)
      · exact Or.inr (h.trans h2)

theorem levelCopy_nonShare {V : Type} (fields : List Field) (src dst : Inst V)
    (f : Field) (hf : f ∈ fields) (hs : isShare f = false) :
    levelCopy fields false src dst f.m_Index = src f.m_Index := by
  induction fields generalizing dst with
  | nil => cases hf
  | cons g t ih =>
    rw [levelCopy_cons]
    rcases List.mem_cons.mp hf with rfl | hft
    · rcases levelCopy_cases t false src (copyStep false src dst f) f.m_Index
        with h | h
      · exact h
      · rw [h]
        unfold copyStep fieldCopy
        rw [hs]
        simp
    · exact ih (copyStep false src dst g) hft

theorem copy_nonShare {V : Type} (S : MetaStruct) (src dst : Inst V)
    (f : Field) (hf : f ∈ allFields S) (hs : isShare f = false) :
    Copy S src dst false f.m_Index = src f.m_Index := by
  induction S generalizing dst with
  | root n fs => exact levelCopy_nonShare fs src dst f hf hs
  | derived n b fs ih =>
    show Copy b src (levelCopy fs false src dst) false f.m_Index = _
    rcases List.mem_append.mp hf with hfs | hfb
    · rcases copy_cases b src (levelCopy fs false src dst) false f.m_Index
        with h | h
      · exact h
      · rw [h]
        exact levelCopy_nonShare fs src dst f hfs hs
    · exact ih (levelCopy fs false src dst) hfb

/-- Claim C2: for every concrete structure type S and instances A and B,
after Copy(A, B, shallow=false), Equals(A, B) is true — the deep copy
clones every non-Share field of every level from A into B, and Equals
compares exactly those fields. -/
theorem C2_copy_then_equals {V : Type} [DecidableEq V] (S : MetaStruct)
    (a b : Inst V) :
    Equals S a (Copy S a b false) = true := by
  rw [equals_eq_true_iff]
  intro f hf hs
  exact (copy_nonShare S a b f hf hs).symm

/-- Claim C3: Equals, invoked on the common-ancestor descriptor, compares
each field of every level from that ancestor up to the root via the access
strategy, skips fields flagged Share, and returns true iff every non-Share
field at every level compares equal (List.all short-circuits to false on
the first mismatching field, and Share-flagged fields never influence the
result since they do not occur on the right-hand side). -/
theorem C3_equals_semantics {V : Type} [DecidableEq V] (S : MetaStruct)
    (a b : Inst V) :
    Equals S a b = true ↔
      ∀ f ∈ allFields S, f.m_Flags &&& FieldFlags.Share = 0 →
        a f.m_Index = b f.m_Index := by
  rw [equals_eq_true_iff]
  constructor
  · intro h f hf hs
    exact h f hf ((isShare_eq_false_iff f).mpr hs)
  · intro h f hf hs
    exact h f hf ((isShare_eq_false_iff f).mp hs)

theorem m_Fields_addField (s : MetaStruct) (d : FieldDecl) :
    (AddField s d).m_Fields = s.m_Fields ++ [newField s d] :=
  m_Fields_withFields s (s.m_Fields ++ [newField s d])

theorem baseFieldCount_addField (s : MetaStruct) (d : FieldDecl) :
    GetBaseFieldCount (AddField s d) = GetBaseFieldCount s :=
  baseFieldCount_withFields s (s.m_Fields ++ [newField s d])

theorem baseFieldCount_populate (s : MetaStruct) (decls : List FieldDecl) :
    GetBaseFieldCount (populate s decls) = GetBaseFieldCount s := by
  induction decls generalizing s with
  | nil => rfl
  | cons d t ih =>
    show GetBaseFieldCount (populate (AddField s d) t) = _
    rw [ih (AddField s d), baseFieldCount_addField]

theorem populate_index_map (s : MetaStruct) (decls : List FieldDecl) :
    (populate s decls).m_Fields.map Field.m_Index
      = s.m_Fields.map Field.m_Index ++
        (List.range decls.length).map
          (fun i => GetBaseFieldCount s + s.m_Fields.length + i) := by
  induction decls generalizing s with
  | nil =>
    show s.m_Fields.map Field.m_Index = _
    rw [List.length_nil, List.range_zero, List.map_nil, List.append_nil]
  | cons d t ih =>
    show (populate (AddField s d) t).m_Fields.map Field.m_Index = _
    have hfun : (fun i => GetBaseFieldCount s + (s.m_Fields.length + 1) + i)
        = (fun i => GetBaseFieldCount s + s.m_Fields.length + i) ∘ Nat.succ := by
      funext i
      show GetBaseFieldCount s + (s.m_Fields.length + 1) + i
        = GetBaseFieldCount s + s.m_Fields.length + (i + 1)
      omega
    rw [ih (AddField s d), m_Fields_addField, baseFieldCount_addField,
      List.map_append, List.length_append, List.length_singleton, hfun]
    simp only [List.length_cons, List.range_succ_eq_map, List.map_cons,
      List.map_nil, List.map_map, List.singleton_append, List.cons_append,
      List.nil_append]
    rw [List.append_assoc, List.singleton_append]
    rfl

theorem create_index_map (base : Option MetaStruct) (name : String)
    (decls : List FieldDecl) :
    (create base name decls).m_Fields.map Field.m_Index
      = (List.range decls.length).map
          (fun i => GetBaseFieldCount (create base name decls) + i) := by
  unfold create
  rw [populate_index_map, baseFieldCount_populate]
  have hempty : (mkEmptyStruct base name).m_Fields = [] := by
    cases base <;> rfl
  rw [hempty]
  rw [List.map_nil, List.nil_append, List.length_nil]
  rfl

/-- Claim C4: for every registered structure (any base, any declaration
list), the own-field indices are exactly GetBaseFieldCount plus the field's
position in declaration order — contiguous, starting at
GetBaseFieldCount() — and GetBaseFieldCount is the recursive sum of field
counts along the base chain, 0 for a root type. -/
theorem C4_field_index_invariant (base : Option MetaStruct) (name : String)
    (decls : List FieldDecl) :
    (create base name decls).m_Fields.map Field.m_Index
      = (List.range decls.length).map
          (fun i => GetBaseFieldCount (create base name decls) + i) ∧
    (∀ nm fs, GetBaseFieldCount (MetaStruct.root nm fs) = 0) ∧
    (∀ nm b fs, GetBaseFieldCount (MetaStruct.derived nm b fs)
      = GetBaseFieldCount b + b.m_Fields.length) :=
  ⟨create_index_map base name decls, fun _ _ => rfl, fun _ _ _ => rfl⟩

/-- Claim C6: AddDerived inserts at the head of the base's intrusive
derived list (the new head is the inserted descriptor and its next-sibling
pointer takes the previous head), and after registering D1, D2, D3
(identities 1, 2, 3) under one base and then unregistering D2, the
reachable derived set is the list D3, D1 — exactly the set with D1 and
D3. -/
theorem C6_derived_list (s : DerivedState) (d : Nat) :
    ((AddDerived d s).firstDerived = some d ∧
      (AddDerived d s).nextSibling d = s.firstDerived) ∧
    derivedList 10 c6Final = [3, 1] := by
  refine ⟨⟨rfl, ?_⟩, by decide⟩
  show (if d = d then s.firstDerived else s.nextSibling d) = s.firstDerived
  rw [if_pos rfl]

theorem find_offset_mem (l : List Field) (f : Field) (hf : f ∈ l)
    (hnd : (l.map Field.m_Offset).Nodup) :
    l.find? (fun g => g.m_Offset == f.m_Offset) = some f := by
  induction l with
  | nil => cases hf
  | cons g t ih =>
    rw [List.map_cons, List.nodup_cons] at hnd
    by_cases hg : g.m_Offset = f.m_Offset
    · rw [List.find?_cons_of_pos _ (by simp [hg])]
      rcases List.mem_cons.mp hf with rfl | hft
      · rfl
      · exact absurd (hg ▸ List.mem_map_of_mem Field.m_Offset hft) hnd.1
    · rw [List.find?_cons_of_neg _ (by simp [hg])]
      rcases List.mem_cons.mp hf with rfl | hft
      · exact absurd rfl hg
      · exact ih hft hnd.2

/-- Claim C7: for a structure whose registered fields carry pairwise
distinct byte offsets, FindFieldByOffset returns each field f exactly at
f's own offset (first match of the linear scan), and returns not-found
(none) for an offset held by no field, rather than failing. -/
theorem C7_findFieldByOffset (s : MetaStruct) (f : Field) (o : Nat)
    (hf : f ∈ s.m_Fields)
    (hnd : (s.m_Fields.map Field.m_Offset).Nodup)
    (ho : ∀ g ∈ s.m_Fields, g.m_Offset ≠ o) :
    FindFieldByOffset s f.m_Offset = some f ∧
    FindFieldByOffset s o = none := by
  constructor
  · exact find_offset_mem s.m_Fields f hf hnd
  · unfold FindFieldByOffset
    rw [List.find?_eq_none]
    intro g hg
    simpa using ho g hg

/-- Witness for claim C7: on the concrete two-field structure with offsets
0 and 4, looking up offset 4 yields its field and looking up offset 100
yields not-found. -/
theorem C7_findFieldByOffset_witness :
    (c7FieldB ∈ c7Struct.m_Fields) ∧
    (FindFieldByOffset c7Struct c7FieldB.m_Offset = some c7FieldB ∧
      FindFieldByOffset c7Struct 100 = none) :=
  ⟨by decide,
    C7_findFieldByOffset c7Struct c7FieldB 100 (by decide) (by decide) (by decide)⟩

/-- Claim C8 counterexample: TestStructure::PopulateMetaType in
src/Tests.cpp performs sixteen AddField calls (ten scalars plus six
container fields — two ordered sequences, two sets and two mappings), so
the registered field count is not 13. -/
theorem C8_counterexample : testStructure.m_Fields.length ≠ 13 := by decide

/-- Claim C8 amended: the demonstration structure registers with exactly 16
fields (ten scalar fields plus six container fields: two ordered sequences,
two unique-element sets and two key-to-value mappings), indices 0 through
15 in declaration order, its GetBaseFieldCount() is 0 (root type), and a
derived structure adding two more fields gets indices 16 and 17. -/
theorem C8_test_structure_registration :
    testStructure.m_Fields.length = 16 ∧
    testStructure.m_Fields.map Field.m_Index = List.range 16 ∧
    GetBaseFieldCount testStructure = 0 ∧
    testDerivedStructure.m_Fields.map Field.m_Index = [16, 17] := by
  refine ⟨by decide, by decide, by decide, by decide⟩

end Reflect
